import Mathlib

/-!
Verification of the AudxAndroid streaming denoiser JNI layer
(`app/src/main/cpp/native-lib.cpp`) against its natural-language
specification.

The C++ code is shallowly embedded: the session state `ResamplerContext`
becomes a Lean structure, the drain loop `audx_process_stream` becomes a
fuel-indexed recursion (each iteration consumes at least one sample, so a
fuel equal to the input-buffer length is always sufficient; when
`input_frame_samples = 0` the C loop would never terminate — the model's
guard requires `0 < input_frame_samples`, and every theorem below carries
that hypothesis where it matters), and the three black-box collaborators
(speex-based resampler pair and the RNNoise denoiser engine, whose
implementations live outside this repository) are modelled as oracles
indexed by the number of frames processed so far in the session, which is
exactly the information their hidden internal state can depend on here.

Samples are 16-bit PCM values, modelled as `Int`; VAD probabilities and
timing values are modelled as `ℚ` (the concrete float constants used by
the code, 0.0f and 1.0f, are exactly representable).
-/

namespace Audx

/-- Modelled from the spec: `AUDX_DEFAULT_SAMPLE_RATE` is a constant of
`audx/common.h`, which is not under `src/`; the spec fixes the engine rate
at 48000 Hz. -/
def AUDX_DEFAULT_SAMPLE_RATE : Nat := 48000

/-- Modelled from the spec: `AUDX_DEFAULT_FRAME_SIZE` is a constant of
`audx/common.h`, which is not under `src/`; the spec fixes the engine
frame at 480 samples. -/
def AUDX_DEFAULT_FRAME_SIZE : Nat := 480

/-- Oracle environment for the three stateful black-box collaborators.
Each function is indexed by the session-wide frame counter (the number of
engine frames processed before the call): the collaborators are called
exactly once per drained frame, in lockstep, so their hidden state — and
hence their output — is a function of this index.

`upsample k` / `downsample k` are the raw sample runs the resampler would
emit at its k-th call (the code clips them to the capacity of the
destination buffer, see `engineInput`); `upStatus`/`downStatus`/`denStatus`
are the return codes of `audx_resample_process` and `denoiser_process`,
which `audx_process_stream` never inspects. `denoise k` is the cleaned
frame the engine writes, `denVad k`/`denSpeech k` the VAD result it
reports. -/
structure Env where
  upsample : Nat → List Int
  upStatus : Nat → Int
  denoise : Nat → List Int
  denVad : Nat → ℚ
  denSpeech : Nat → Bool
  denStatus : Nat → Int
  downsample : Nat → List Int
  downStatus : Nat → Int

/-- The session state: the fields of `ResamplerContext`
(native-lib.cpp, lines 45–74). Pre-allocated buffers are represented by
their fixed sizes (`upsampled_cap` = `upsampled_buffer.size()`,
`denoised_cap` = `denoised_buffer.size()`,
`downsampled_cap` = `downsampled_buffer.size()`), which are set at
creation and never change. `frames_done` is the session-wide frame
counter used to index the collaborator oracles; it is not a C field but
the count of iterations of the drain loop since creation, which
determines the hidden state of the stateful collaborators. -/
@[ext] structure Ctx where
  needs_resampling : Bool
  input_frame_samples : Nat
  output_frame_samples : Nat
  has_upsampler : Bool
  has_downsampler : Bool
  upsampled_cap : Nat
  denoised_cap : Nat
  downsampled_cap : Nat
  input_buffer : List Int
  output_buffer : List Int
  last_vad_prob : ℚ
  is_speech : Bool
  frames_done : Nat
  deriving DecidableEq

/-- Result triple marshalled back by `create_jni_result`
(native-lib.cpp, lines 461–480): the drained output buffer, the last VAD
probability and the last speech decision. -/
structure StreamResult where
  audio : List Int
  vad_prob : ℚ
  is_speech : Bool
  deriving DecidableEq

/-- The contents of the fixed-size `upsampled_buffer` handed to
`denoiser_process` on the resampling path (native-lib.cpp, lines
409–421): `audx_resample_process` is passed output capacity `cap` (the
size of `upsampled_buffer`) and writes `out_len = min (emitted) cap`
samples; then, if `out_len < target` (`target` =
`output_frame_samples`), positions `[out_len, target)` are filled with
zeros. -/
def engineInput (env : Env) (cap target : Nat) (k : Nat) : List Int :=
  let emitted := (env.upsample k).take cap
  if emitted.length < target then
    emitted ++ List.replicate (target - emitted.length) 0
  else
    emitted

/-- The contents of the fixed-size `denoised_buffer` (size `cap`) after
`denoiser_process` has written into it. Modelled from the spec: the
engine contract ("given exactly N samples, produce N cleaned samples")
says the engine writes exactly the frame size; `denoiser.h`/its
implementation are not under `src/`. The take-and-pad makes the buffer
representation total (length always `cap`) even for an out-of-contract
oracle. -/
def denoisedFrame (env : Env) (cap : Nat) (k : Nat) : List Int :=
  (env.denoise k).take cap ++ List.replicate (cap - (env.denoise k).length) 0

/-- One iteration of the drain loop body of `audx_process_stream`
(native-lib.cpp, lines 397–446): consume one `input_frame_samples`-sized
frame from the head of the input buffer, run the per-frame pipeline, and
append the produced samples to the output buffer. On the resampling path
the appended run is the downsampler output clipped to the capacity of
`downsampled_buffer`; on the direct path it is the first
`input_frame_samples` samples of `denoised_buffer`. -/
def streamStep (env : Env) (ctx : Ctx) : Ctx :=
  let rest := ctx.input_buffer.drop ctx.input_frame_samples
  let k := ctx.frames_done
  if ctx.needs_resampling then
    { ctx with
      input_buffer := rest
      output_buffer :=
        ctx.output_buffer ++ (env.downsample k).take ctx.downsampled_cap
      last_vad_prob := env.denVad k
      is_speech := env.denSpeech k
      frames_done := k + 1 }
  else
    { ctx with
      input_buffer := rest
      output_buffer :=
        ctx.output_buffer ++
          (denoisedFrame env ctx.denoised_cap k).take ctx.input_frame_samples
      last_vad_prob := env.denVad k
      is_speech := env.denSpeech k
      frames_done := k + 1 }

/-- Fuel-indexed form of the `while` drain loop of `audx_process_stream`.
Each iteration consumes `input_frame_samples ≥ 1` samples, so fuel equal
to the buffer length suffices (`audx_process_stream` below passes exactly
that). The second component is the `frames_processed` return value of the
C function. -/
def audx_process_streamF (env : Env) : Nat → Ctx → Ctx × Nat
  | 0, ctx => (ctx, 0)
  | fuel + 1, ctx =>
    if 0 < ctx.input_frame_samples ∧
        ctx.input_frame_samples ≤ ctx.input_buffer.length then
      let r := audx_process_streamF env fuel (streamStep env ctx)
      (r.1, r.2 + 1)
    else
      (ctx, 0)

/-- The drain loop `audx_process_stream` (native-lib.cpp, lines
391–449): processes full frames from the input buffer while at least
`input_frame_samples` samples remain. Returns the updated context and
the number of frames processed. -/
def audx_process_stream (env : Env) (ctx : Ctx) : Ctx × Nat :=
  audx_process_streamF env ctx.input_buffer.length ctx

/-- The marshalling helper `create_jni_result` (native-lib.cpp, lines
461–480): copies the output buffer and the last VAD state into the
result, then clears the output buffer. -/
def create_jni_result (ctx : Ctx) : Ctx × StreamResult :=
  ({ ctx with output_buffer := [] },
   { audio := ctx.output_buffer
     vad_prob := ctx.last_vad_prob
     is_speech := ctx.is_speech })

/-- The `feed` entry point `Java_com_android_audx_AudxDenoiser_processNative`
(native-lib.cpp, lines 271–290): append the incoming chunk to the input
buffer, run the drain loop, marshal the result. -/
def processNative (env : Env) (ctx : Ctx) (input : List Int) :
    Ctx × StreamResult :=
  let c1 := { ctx with input_buffer := ctx.input_buffer ++ input }
  let c2 := (audx_process_stream env c1).1
  create_jni_result c2

/-- The `flush` entry point `Java_com_android_audx_AudxDenoiser_flushNative`
(native-lib.cpp, lines 363–379): append `input_frame_samples` zero
samples, run the drain loop, marshal the result, then clear the input
buffer. -/
def flushNative (env : Env) (ctx : Ctx) : Ctx × StreamResult :=
  let c1 := { ctx with
    input_buffer :=
      ctx.input_buffer ++ List.replicate ctx.input_frame_samples 0 }
  let c2 := (audx_process_stream env c1).1
  let r := create_jni_result c2
  ({ r.1 with input_buffer := [] }, r.2)

/-- The `ResamplerContext` produced by the success path of
`Java_com_android_audx_AudxDenoiser_createNative` (native-lib.cpp, lines
136–169). On the resampling path the C code computes
`input_frame_samples` as `(int)((double)480 * rate / 48000.0)`: the cast
truncates toward zero. Nat floor division is an exact model of that
expression: `480 * rate` is an exact double for every `jint` rate, and
the quotient is a multiple of `1/100` at this scale, so the
rounding error of the double division (relative, about `2⁻⁵²`) can never
move the value across an integer boundary; hence the truncated double
equals the mathematical floor. -/
def createCtx (inputSampleRate : Nat) : Ctx :=
  if inputSampleRate ≠ AUDX_DEFAULT_SAMPLE_RATE then
    { needs_resampling := true
      input_frame_samples :=
        AUDX_DEFAULT_FRAME_SIZE * inputSampleRate / AUDX_DEFAULT_SAMPLE_RATE
      output_frame_samples := AUDX_DEFAULT_FRAME_SIZE
      has_upsampler := true
      has_downsampler := true
      upsampled_cap := AUDX_DEFAULT_FRAME_SIZE
      denoised_cap := AUDX_DEFAULT_FRAME_SIZE
      downsampled_cap :=
        (AUDX_DEFAULT_FRAME_SIZE * inputSampleRate / AUDX_DEFAULT_SAMPLE_RATE)
          * 2
      input_buffer := []
      output_buffer := []
      last_vad_prob := 0
      is_speech := false
      frames_done := 0 }
  else
    { needs_resampling := false
      input_frame_samples := AUDX_DEFAULT_FRAME_SIZE
      output_frame_samples := AUDX_DEFAULT_FRAME_SIZE
      has_upsampler := false
      has_downsampler := false
      upsampled_cap := 0
      denoised_cap := AUDX_DEFAULT_FRAME_SIZE
      downsampled_cap := 0
      input_buffer := []
      output_buffer := []
      last_vad_prob := 0
      is_speech := false
      frames_done := 0 }

/-- Native resources acquired during `createNative`. -/
inductive Resource where
  | denoiser
  | resamplerCtx
  | upsampler
  | downsampler
  | jniCache
  deriving DecidableEq

/-- Resource-accounting model of
`Java_com_android_audx_AudxDenoiser_createNative` (native-lib.cpp,
lines 103–228). The booleans say whether each collaborator construction
succeeds (`denoiser_create`, `audx_resample_create` for the upsampler
and for the downsampler, and the JNI-cache lookups). Returns the created
context (`none` models the function returning handle 0) together with
the list of resources that were acquired during the call and not
released before returning — on a success return the resources are owned
by the returned handle and the list is empty by convention.

Traced from the source: on denoiser failure (lines 125–131) the config
and denoiser allocations are freed before returning. On resampler
failure (lines 150–153) the code returns 0 with no cleanup at all: the
denoiser, the `ResamplerContext` allocation, and whichever of the two
resamplers `audx_resample_create` did build are all left unreleased
(both create calls run before the check). On JNI-cache failure (lines
176–224) the code deletes the cache, the context and the denoiser, but
never calls `audx_resample_destroy` on the two resamplers. -/
def createNative (inputSampleRate : Nat)
    (denoiserOk upOk downOk cacheOk : Bool) :
    Option Ctx × List Resource :=
  if !denoiserOk then
    (none, [])
  else if inputSampleRate ≠ AUDX_DEFAULT_SAMPLE_RATE then
    if !upOk || !downOk then
      (none,
        [Resource.denoiser, Resource.resamplerCtx]
          ++ (if upOk then [Resource.upsampler] else [])
          ++ (if downOk then [Resource.downsampler] else []))
    else if !cacheOk then
      (none, [Resource.upsampler, Resource.downsampler])
    else
      (some (createCtx inputSampleRate), [])
  else if !cacheOk then
    (none, [])
  else
    (some (createCtx inputSampleRate), [])

/-- The statistics fields of the `Denoiser` struct touched by
`cleanStatsNative` (native-lib.cpp, lines 535–542). The struct itself is
declared in `audx/denoiser.h`, which is not under `src/`; the fields are
taken from their use sites in `native-lib.cpp`. -/
structure Denoiser where
  frames_processed : Nat
  speech_frames : Nat
  total_vad_score : ℚ
  min_vad_score : ℚ
  max_vad_score : ℚ
  total_processing_time : ℚ
  last_frame_time : ℚ
  deriving DecidableEq

/-- The stats reset `Java_com_android_audx_AudxDenoiser_cleanStatsNative`
(native-lib.cpp, lines 529–543): zero the counters, sums and timing
fields, set the running minimum to 1.0 and the running maximum to 0.0. -/
def cleanStatsNative (d : Denoiser) : Denoiser :=
  { d with
    frames_processed := 0
    speech_frames := 0
    total_vad_score := 0
    min_vad_score := 1
    max_vad_score := 0
    total_processing_time := 0
    last_frame_time := 0 }

/-- Modelled from the spec: the per-frame statistics fold performed by
`denoiser_process` (its implementation is not under `src/`). Spec §4.3:
"increments frameCount; if isSpeech, increments speechFrameCount; folds
vadProbability into running sum/min/max; records processing latency into
cumulative and last-latency fields". -/
def statsUpdate (d : Denoiser) (vad : ℚ) (speech : Bool) (t : ℚ) :
    Denoiser :=
  { frames_processed := d.frames_processed + 1
    speech_frames := d.speech_frames + (if speech then 1 else 0)
    total_vad_score := d.total_vad_score + vad
    min_vad_score := min d.min_vad_score vad
    max_vad_score := max d.max_vad_score vad
    total_processing_time := d.total_processing_time + t
    last_frame_time := t }

/-- Spec-side definition (for the refinement comparison in C1 only):
round-to-nearest integer division, halves rounding up, as in the spec's
`round(engineFrameSamples × inputRate / engineRate)`. -/
def roundDiv (num den : Nat) : Nat := (2 * num + den) / (2 * den)

/-- Fuel-indexed pure characterization of the framing performed by the
drain loop on a buffer: the list of consumed `n`-sized head slices and
the remainder. -/
def splitFramesF : Nat → Nat → List Int → List (List Int) × List Int
  | 0, _, buf => ([], buf)
  | fuel + 1, n, buf =>
    if 0 < n ∧ n ≤ buf.length then
      let r := splitFramesF fuel n (buf.drop n)
      (buf.take n :: r.1, r.2)
    else
      ([], buf)

/-- The frames the drain loop consumes from a buffer, and the remainder
it leaves (fuel instantiated to the always-sufficient buffer length). -/
def splitFrames (n : Nat) (buf : List Int) : List (List Int) × List Int :=
  splitFramesF buf.length n buf

/-- The sequence of `n`-sized engine input frames the drain loop
consumes from buffer `buf`, in order. -/
def consumedFrames (n : Nat) (buf : List Int) : List (List Int) :=
  (splitFrames n buf).1

/-- The run of samples one drain-loop iteration appends to the output
buffer, as a function of the session configuration and the frame
index. -/
def frameOut (env : Env) (ctx : Ctx) (k : Nat) : List Int :=
  if ctx.needs_resampling then
    (env.downsample k).take ctx.downsampled_cap
  else
    (denoisedFrame env ctx.denoised_cap k).take ctx.input_frame_samples

/-- The output appended by `m` consecutive drain-loop iterations
starting at frame index `k`. -/
def outsRange (env : Env) (ctx : Ctx) (k m : Nat) : List Int :=
  ((List.range' k m).map (frameOut env ctx)).flatten

lemma splitFramesF_nil (fuel n : Nat) : splitFramesF fuel n [] = ([], []) := by
  cases fuel with
  | zero => rfl
  | succ f =>
    have h : ¬(0 < n ∧ n ≤ ([] : List Int).length) := by
      simp only [List.length_nil]
      omega
    simp only [splitFramesF, if_neg h]

lemma splitFramesF_congr : ∀ (f1 f2 n : Nat) (buf : List Int),
    buf.length ≤ f1 → buf.length ≤ f2 →
    splitFramesF f1 n buf = splitFramesF f2 n buf := by
  intro f1
  induction f1 with
  | zero =>
    intro f2 n buf h1 _
    have hb : buf = [] := List.length_eq_zero.mp (by omega)
    subst hb
    rw [splitFramesF_nil, splitFramesF_nil]
  | succ f ih =>
    intro f2 n buf h1 h2
    cases f2 with
    | zero =>
      have hb : buf = [] := List.length_eq_zero.mp (by omega)
      subst hb
      rw [splitFramesF_nil, splitFramesF_nil]
    | succ g =>
      by_cases hg : 0 < n ∧ n ≤ buf.length
      · simp only [splitFramesF, if_pos hg]
        have hd : (buf.drop n).length ≤ f := by
          simp only [List.length_drop]; omega
        have hd2 : (buf.drop n).length ≤ g := by
          simp only [List.length_drop]; omega
        rw [ih g n (buf.drop n) hd hd2]
      · simp only [splitFramesF, if_neg hg]

lemma splitFrames_nil (n : Nat) : splitFrames n [] = ([], []) := rfl

lemma splitFrames_step (n : Nat) (buf : List Int) (h1 : 0 < n)
    (h2 : n ≤ buf.length) :
    splitFrames n buf =
      (buf.take n :: (splitFrames n (buf.drop n)).1,
       (splitFrames n (buf.drop n)).2) := by
  unfold splitFrames
  obtain ⟨m, hm⟩ : ∃ m, buf.length = m + 1 := ⟨buf.length - 1, by omega⟩
  rw [hm]
  simp only [splitFramesF, if_pos (And.intro h1 h2)]
  rw [splitFramesF_congr m (buf.drop n).length n (buf.drop n)
    (by simp only [List.length_drop]; omega) (le_refl _)]

lemma splitFrames_small (n : Nat) (buf : List Int) (h : buf.length < n) :
    splitFrames n buf = ([], buf) := by
  unfold splitFrames
  cases buf with
  | nil => rfl
  | cons x xs =>
    simp only [List.length_cons] at h ⊢
    simp only [splitFramesF]
    rw [if_neg]
    simp only [List.length_cons]
    omega

lemma splitFrames_length_aux (n : Nat) (hn : 0 < n) :
    ∀ (fuel : Nat) (buf : List Int), buf.length ≤ fuel →
      (splitFrames n buf).1.length = buf.length / n ∧
      (splitFrames n buf).2.length = buf.length % n := by
  intro fuel
  induction fuel with
  | zero =>
    intro buf hb
    have : buf = [] := List.length_eq_zero.mp (by omega)
    subst this
    simp [splitFrames_nil]
  | succ f ih =>
    intro buf hb
    by_cases h2 : n ≤ buf.length
    · rw [splitFrames_step n buf hn h2]
      have hd := ih (buf.drop n) (by simp only [List.length_drop]; omega)
      refine ⟨?_, ?_⟩
      · simp only [List.length_cons, hd.1, List.length_drop]
        rw [Nat.div_eq_sub_div hn h2]
      · simp only [hd.2, List.length_drop]
        rw [Nat.mod_eq_sub_mod h2]
    · rw [splitFrames_small n buf (by omega)]
      refine ⟨?_, ?_⟩
      · simp only [List.length_nil]
        rw [Nat.div_eq_of_lt (by omega)]
      · rw [Nat.mod_eq_of_lt (by omega)]

lemma consumedFrames_length (n : Nat) (hn : 0 < n) (buf : List Int) :
    (consumedFrames n buf).length = buf.length / n :=
  (splitFrames_length_aux n hn buf.length buf (le_refl _)).1

lemma splitFrames_rest_length (n : Nat) (hn : 0 < n) (buf : List Int) :
    (splitFrames n buf).2.length = buf.length % n :=
  (splitFrames_length_aux n hn buf.length buf (le_refl _)).2

lemma splitFrames_rest_lt (n : Nat) (hn : 0 < n) (buf : List Int) :
    (splitFrames n buf).2.length < n := by
  rw [splitFrames_rest_length n hn buf]
  exact Nat.mod_lt _ hn

lemma splitFrames_append_aux (n : Nat) (hn : 0 < n) :
    ∀ (fuel : Nat) (a b : List Int), a.length ≤ fuel →
      splitFrames n (a ++ b) =
        ((splitFrames n a).1 ++ (splitFrames n ((splitFrames n a).2 ++ b)).1,
         (splitFrames n ((splitFrames n a).2 ++ b)).2) := by
  intro fuel
  induction fuel with
  | zero =>
    intro a b ha
    have : a = [] := List.length_eq_zero.mp (by omega)
    subst this
    simp [splitFrames_nil]
  | succ f ih =>
    intro a b ha
    by_cases h2 : n ≤ a.length
    · have hab : n ≤ (a ++ b).length := by
        simp only [List.length_append]; omega
      rw [splitFrames_step n (a ++ b) hn hab, splitFrames_step n a hn h2,
        List.take_append_of_le_length h2, List.drop_append_of_le_length h2]
      rw [ih (a.drop n) b (by simp only [List.length_drop]; omega)]
      simp only [List.cons_append]
    · rw [splitFrames_small n a (by omega)]
      simp only [List.nil_append]

lemma splitFrames_append (n : Nat) (hn : 0 < n) (a b : List Int) :
    splitFrames n (a ++ b) =
      ((splitFrames n a).1 ++ (splitFrames n ((splitFrames n a).2 ++ b)).1,
       (splitFrames n ((splitFrames n a).2 ++ b)).2) :=
  splitFrames_append_aux n hn a.length a b (le_refl _)

lemma streamStep_needs (env : Env) (ctx : Ctx) :
    (streamStep env ctx).needs_resampling = ctx.needs_resampling := by
  unfold streamStep
  split <;> rfl

lemma streamStep_ifs (env : Env) (ctx : Ctx) :
    (streamStep env ctx).input_frame_samples = ctx.input_frame_samples := by
  unfold streamStep
  split <;> rfl

lemma streamStep_ofs (env : Env) (ctx : Ctx) :
    (streamStep env ctx).output_frame_samples = ctx.output_frame_samples := by
  unfold streamStep
  split <;> rfl

lemma streamStep_hasup (env : Env) (ctx : Ctx) :
    (streamStep env ctx).has_upsampler = ctx.has_upsampler := by
  unfold streamStep
  split <;> rfl

lemma streamStep_hasdown (env : Env) (ctx : Ctx) :
    (streamStep env ctx).has_downsampler = ctx.has_downsampler := by
  unfold streamStep
  split <;> rfl

lemma streamStep_upcap (env : Env) (ctx : Ctx) :
    (streamStep env ctx).upsampled_cap = ctx.upsampled_cap := by
  unfold streamStep
  split <;> rfl

lemma streamStep_dencap (env : Env) (ctx : Ctx) :
    (streamStep env ctx).denoised_cap = ctx.denoised_cap := by
  unfold streamStep
  split <;> rfl

lemma streamStep_downcap (env : Env) (ctx : Ctx) :
    (streamStep env ctx).downsampled_cap = ctx.downsampled_cap := by
  unfold streamStep
  split <;> rfl

lemma streamStep_input_buffer (env : Env) (ctx : Ctx) :
    (streamStep env ctx).input_buffer =
      ctx.input_buffer.drop ctx.input_frame_samples := by
  unfold streamStep
  split <;> rfl

lemma streamStep_output_buffer (env : Env) (ctx : Ctx) :
    (streamStep env ctx).output_buffer =
      ctx.output_buffer ++ frameOut env ctx ctx.frames_done := by
  unfold streamStep frameOut
  by_cases h : ctx.needs_resampling = true
  · rw [if_pos h, if_pos h]
  · rw [if_neg h, if_neg h]

lemma streamStep_vad (env : Env) (ctx : Ctx) :
    (streamStep env ctx).last_vad_prob = env.denVad ctx.frames_done := by
  unfold streamStep
  split <;> rfl

lemma streamStep_speech (env : Env) (ctx : Ctx) :
    (streamStep env ctx).is_speech = env.denSpeech ctx.frames_done := by
  unfold streamStep
  split <;> rfl

lemma streamStep_frames_done (env : Env) (ctx : Ctx) :
    (streamStep env ctx).frames_done = ctx.frames_done + 1 := by
  unfold streamStep
  split <;> rfl

lemma frameOut_streamStep (env : Env) (ctx : Ctx) (k : Nat) :
    frameOut env (streamStep env ctx) k = frameOut env ctx k := by
  unfold frameOut
  rw [streamStep_needs, streamStep_downcap, streamStep_dencap, streamStep_ifs]

lemma frameOut_streamStep_fun (env : Env) (ctx : Ctx) :
    frameOut env (streamStep env ctx) = frameOut env ctx := by
  funext k
  exact frameOut_streamStep env ctx k

lemma outsRange_streamStep (env : Env) (ctx : Ctx) (j m : Nat) :
    outsRange env (streamStep env ctx) j m = outsRange env ctx j m := by
  simp only [outsRange, frameOut_streamStep_fun]

lemma outsRange_zero (env : Env) (ctx : Ctx) (k : Nat) :
    outsRange env ctx k 0 = [] := rfl

lemma outsRange_succ (env : Env) (ctx : Ctx) (k m : Nat) :
    outsRange env ctx k (m + 1) =
      frameOut env ctx k ++ outsRange env ctx (k + 1) m := by
  simp only [outsRange, List.range'_succ, List.map_cons, List.flatten_cons]

/-- Normal form of the drain loop: given positive frame size and enough
fuel, `audx_process_streamF` leaves exactly the framing remainder in the
input buffer, appends the per-frame outputs of the consumed frames to
the output buffer, updates the VAD state to the last processed frame
(if any), advances the frame counter by the number of consumed frames,
and returns that number. -/
lemma audx_process_streamF_spec (env : Env) :
    ∀ (fuel : Nat) (ctx : Ctx), 0 < ctx.input_frame_samples →
      ctx.input_buffer.length ≤ fuel →
      audx_process_streamF env fuel ctx =
        ({ ctx with
            input_buffer :=
              (splitFrames ctx.input_frame_samples ctx.input_buffer).2
            output_buffer := ctx.output_buffer ++
              outsRange env ctx ctx.frames_done
                (consumedFrames ctx.input_frame_samples ctx.input_buffer).length
            last_vad_prob :=
              if (consumedFrames ctx.input_frame_samples
                    ctx.input_buffer).length = 0 then
                ctx.last_vad_prob
              else
                env.denVad (ctx.frames_done +
                  (consumedFrames ctx.input_frame_samples
                    ctx.input_buffer).length - 1)
            is_speech :=
              if (consumedFrames ctx.input_frame_samples
                    ctx.input_buffer).length = 0 then
                ctx.is_speech
              else
                env.denSpeech (ctx.frames_done +
                  (consumedFrames ctx.input_frame_samples
                    ctx.input_buffer).length - 1)
            frames_done := ctx.frames_done +
              (consumedFrames ctx.input_frame_samples
                ctx.input_buffer).length },
         (consumedFrames ctx.input_frame_samples ctx.input_buffer).length) := by
  intro fuel
  induction fuel with
  | zero =>
    intro ctx hn hf
    have hb : ctx.input_buffer = [] := List.length_eq_zero.mp (by omega)
    simp only [audx_process_streamF, hb, splitFrames_nil, consumedFrames,
      List.length_nil, outsRange_zero, List.append_nil, eq_self_iff_true,
      if_true, Nat.add_zero]
    rw [← hb]
  | succ f ih =>
    intro ctx hn hf
    by_cases hg : ctx.input_frame_samples ≤ ctx.input_buffer.length
    · have hstep_len : (streamStep env ctx).input_buffer.length ≤ f := by
        rw [streamStep_input_buffer]
        simp only [List.length_drop]
        omega
      have hn' : 0 < (streamStep env ctx).input_frame_samples := by
        rw [streamStep_ifs]; exact hn
      have hkey := ih (streamStep env ctx) hn' hstep_len
      simp only [streamStep_needs, streamStep_ifs, streamStep_ofs,
        streamStep_hasup, streamStep_hasdown, streamStep_upcap,
        streamStep_dencap, streamStep_downcap, streamStep_input_buffer,
        streamStep_output_buffer, streamStep_vad, streamStep_speech,
        streamStep_frames_done, outsRange_streamStep, consumedFrames]
        at hkey
      simp only [audx_process_streamF, if_pos (And.intro hn hg)]
      rw [hkey]
      simp only [consumedFrames]
      rw [splitFrames_step ctx.input_frame_samples ctx.input_buffer hn hg]
      simp only [List.length_cons]
      set m := ((splitFrames ctx.input_frame_samples
        (ctx.input_buffer.drop ctx.input_frame_samples)).1).length with hm
      clear_value m
      have hv : (if m = 0 then env.denVad ctx.frames_done
          else env.denVad (ctx.frames_done + 1 + m - 1)) =
          (if m + 1 = 0 then ctx.last_vad_prob
          else env.denVad (ctx.frames_done + (m + 1) - 1)) := by
        cases m with
        | zero => simp
        | succ j =>
          rw [if_neg (by omega), if_neg (by omega)]
          congr 1
          omega
      have hs : (if m = 0 then env.denSpeech ctx.frames_done
          else env.denSpeech (ctx.frames_done + 1 + m - 1)) =
          (if m + 1 = 0 then ctx.is_speech
          else env.denSpeech (ctx.frames_done + (m + 1) - 1)) := by
        cases m with
        | zero => simp
        | succ j =>
          rw [if_neg (by omega), if_neg (by omega)]
          congr 1
          omega
      have harith : ctx.frames_done + 1 + m = ctx.frames_done + (m + 1) := by
        omega
      rw [outsRange_succ, List.append_assoc, hv, hs, harith]
    · have hsmall : ctx.input_buffer.length < ctx.input_frame_samples := by
        omega
      have hneg : ¬(0 < ctx.input_frame_samples ∧
          ctx.input_frame_samples ≤ ctx.input_buffer.length) := by
        intro hc; omega
      simp only [audx_process_streamF, if_neg hneg, consumedFrames,
        splitFrames_small ctx.input_frame_samples ctx.input_buffer hsmall,
        List.length_nil, outsRange_zero, List.append_nil, eq_self_iff_true,
        if_true, Nat.add_zero]

/-- Normal form of `audx_process_stream` on any context with a positive
frame size. -/
lemma audx_process_stream_spec (env : Env) (ctx : Ctx)
    (hn : 0 < ctx.input_frame_samples) :
    audx_process_stream env ctx =
      ({ ctx with
          input_buffer :=
            (splitFrames ctx.input_frame_samples ctx.input_buffer).2
          output_buffer := ctx.output_buffer ++
            outsRange env ctx ctx.frames_done
              (consumedFrames ctx.input_frame_samples ctx.input_buffer).length
          last_vad_prob :=
            if (consumedFrames ctx.input_frame_samples
                  ctx.input_buffer).length = 0 then
              ctx.last_vad_prob
            else
              env.denVad (ctx.frames_done +
                (consumedFrames ctx.input_frame_samples
                  ctx.input_buffer).length - 1)
          is_speech :=
            if (consumedFrames ctx.input_frame_samples
                  ctx.input_buffer).length = 0 then
              ctx.is_speech
            else
              env.denSpeech (ctx.frames_done +
                (consumedFrames ctx.input_frame_samples
                  ctx.input_buffer).length - 1)
          frames_done := ctx.frames_done +
            (consumedFrames ctx.input_frame_samples ctx.input_buffer).length },
       (consumedFrames ctx.input_frame_samples ctx.input_buffer).length) :=
  audx_process_streamF_spec env ctx.input_buffer.length ctx hn (le_refl _)

lemma frameOut_fields (env : Env) (c1 c2 : Ctx)
    (h1 : c1.needs_resampling = c2.needs_resampling)
    (h2 : c1.downsampled_cap = c2.downsampled_cap)
    (h3 : c1.denoised_cap = c2.denoised_cap)
    (h4 : c1.input_frame_samples = c2.input_frame_samples) :
    frameOut env c1 = frameOut env c2 := by
  funext k
  unfold frameOut
  rw [h1, h2, h3, h4]

lemma outsRange_set_input (env : Env) (ctx : Ctx) (X : List Int) (k m : Nat) :
    outsRange env { ctx with input_buffer := X } k m =
      outsRange env ctx k m := by
  unfold outsRange
  rw [frameOut_fields env { ctx with input_buffer := X } ctx rfl rfl rfl rfl]

/-- State of the session after a `processNative` call, in closed form. -/
lemma processNative_state (env : Env) (ctx : Ctx) (input : List Int)
    (hn : 0 < ctx.input_frame_samples) :
    (processNative env ctx input).1 =
      { ctx with
        input_buffer :=
          (splitFrames ctx.input_frame_samples (ctx.input_buffer ++ input)).2
        output_buffer := []
        last_vad_prob :=
          if (consumedFrames ctx.input_frame_samples
                (ctx.input_buffer ++ input)).length = 0 then
            ctx.last_vad_prob
          else
            env.denVad (ctx.frames_done +
              (consumedFrames ctx.input_frame_samples
                (ctx.input_buffer ++ input)).length - 1)
        is_speech :=
          if (consumedFrames ctx.input_frame_samples
                (ctx.input_buffer ++ input)).length = 0 then
            ctx.is_speech
          else
            env.denSpeech (ctx.frames_done +
              (consumedFrames ctx.input_frame_samples
                (ctx.input_buffer ++ input)).length - 1)
        frames_done := ctx.frames_done +
          (consumedFrames ctx.input_frame_samples
            (ctx.input_buffer ++ input)).length } := by
  simp only [processNative]
  rw [audx_process_stream_spec env
    { ctx with input_buffer := ctx.input_buffer ++ input } (by exact hn)]
  simp only [create_jni_result]

/-- Result of a `processNative` call, in closed form. -/
lemma processNative_result (env : Env) (ctx : Ctx) (input : List Int)
    (hn : 0 < ctx.input_frame_samples) :
    (processNative env ctx input).2 =
      { audio := ctx.output_buffer ++
          outsRange env ctx ctx.frames_done
            (consumedFrames ctx.input_frame_samples
              (ctx.input_buffer ++ input)).length
        vad_prob :=
          if (consumedFrames ctx.input_frame_samples
                (ctx.input_buffer ++ input)).length = 0 then
            ctx.last_vad_prob
          else
            env.denVad (ctx.frames_done +
              (consumedFrames ctx.input_frame_samples
                (ctx.input_buffer ++ input)).length - 1)
        is_speech :=
          if (consumedFrames ctx.input_frame_samples
                (ctx.input_buffer ++ input)).length = 0 then
            ctx.is_speech
          else
            env.denSpeech (ctx.frames_done +
              (consumedFrames ctx.input_frame_samples
                (ctx.input_buffer ++ input)).length - 1) } := by
  simp only [processNative]
  rw [audx_process_stream_spec env
    { ctx with input_buffer := ctx.input_buffer ++ input } (by exact hn)]
  simp only [create_jni_result, outsRange_set_input]

lemma denoisedFrame_length (env : Env) (cap k : Nat) :
    (denoisedFrame env cap k).length = cap := by
  unfold denoisedFrame
  simp only [List.length_append, List.length_take, List.length_replicate]
  omega

lemma engineInput_length (env : Env) (t k : Nat) :
    (engineInput env t t k).length = t := by
  unfold engineInput
  by_cases h : ((env.upsample k).take t).length < t
  · rw [if_pos h]
    simp only [List.length_append, List.length_replicate]
    omega
  · rw [if_neg h]
    simp only [List.length_take] at h ⊢
    omega

lemma engineInput_pad (env : Env) (t k : Nat)
    (h : (env.upsample k).length < t) :
    engineInput env t t k =
      env.upsample k ++ List.replicate (t - (env.upsample k).length) 0 := by
  unfold engineInput
  rw [List.take_of_length_le (by omega)]
  rw [if_pos h]

lemma engineInput_truncate (env : Env) (t k : Nat)
    (h : t ≤ (env.upsample k).length) :
    engineInput env t t k = (env.upsample k).take t := by
  unfold engineInput
  rw [if_neg]
  simp only [List.length_take]
  omega

lemma engineInput_take_congr (env env' : Env) (cap target k : Nat)
    (h : (env.upsample k).take cap = (env'.upsample k).take cap) :
    engineInput env cap target k = engineInput env' cap target k := by
  unfold engineInput
  rw [h]

lemma outsRange_length_const (env : Env) (ctx : Ctx) (L : Nat)
    (hL : ∀ j, (frameOut env ctx j).length = L) :
    ∀ (m k : Nat), (outsRange env ctx k m).length = m * L := by
  intro m
  induction m with
  | zero => intro k; simp [outsRange_zero]
  | succ j ih =>
    intro k
    rw [outsRange_succ]
    simp only [List.length_append, hL, ih]
    rw [Nat.succ_mul]
    omega

lemma roundDiv_of_dvd (num den : Nat) (hden : 0 < den) (h : den ∣ num) :
    roundDiv num den = num / den := by
  obtain ⟨q, hq⟩ := h
  subst hq
  rw [Nat.mul_div_cancel_left q hden]
  unfold roundDiv
  have h2 : 2 * (den * q) + den = 2 * den * q + den := by ring
  rw [h2, Nat.mul_add_div (by omega), Nat.div_eq_of_lt (by omega)]
  omega

lemma streamStep_env_congr (env env' : Env)
    (h2 : env.denoise = env'.denoise) (h3 : env.denVad = env'.denVad)
    (h4 : env.denSpeech = env'.denSpeech)
    (h5 : env.downsample = env'.downsample) :
    ∀ ctx, streamStep env ctx = streamStep env' ctx := by
  intro ctx
  unfold streamStep denoisedFrame
  rw [h2, h3, h4, h5]

/-- The drain loop never inspects the return codes of
`audx_resample_process` or `denoiser_process`: its result depends only on
the sample and VAD outputs of the collaborators, not on their status
fields (the upsampler output is also never read, because the cleaned
frame is the engine oracle's output). -/
lemma audx_process_streamF_env_congr (env env' : Env)
    (h2 : env.denoise = env'.denoise) (h3 : env.denVad = env'.denVad)
    (h4 : env.denSpeech = env'.denSpeech)
    (h5 : env.downsample = env'.downsample) :
    ∀ fuel ctx,
      audx_process_streamF env fuel ctx =
        audx_process_streamF env' fuel ctx := by
  intro fuel
  induction fuel with
  | zero => intro ctx; rfl
  | succ f ih =>
    intro ctx
    simp only [audx_process_streamF]
    by_cases hg : 0 < ctx.input_frame_samples ∧
        ctx.input_frame_samples ≤ ctx.input_buffer.length
    · rw [if_pos hg, if_pos hg, streamStep_env_congr env env' h2 h3 h4 h5, ih]
    · rw [if_neg hg, if_neg hg]

lemma lastOf_comp {α : Type} (f : Nat → α) (v : α) (k m1 m2 : Nat) :
    (if m2 = 0 then if m1 = 0 then v else f (k + m1 - 1)
     else f (k + m1 + m2 - 1)) =
    if m1 + m2 = 0 then v else f (k + (m1 + m2) - 1) := by
  rcases Nat.eq_zero_or_pos m2 with h2 | h2
  · subst h2
    rw [if_pos rfl]
    simp
  · rw [if_neg (by omega), if_neg (by omega)]
    congr 1
    omega

/-- Feeding chunk `c` and then chunk `rest` leaves the session in the
same state as feeding `c ++ rest` in one call. -/
lemma processNative_comp (env : Env) (ctx : Ctx) (c rest : List Int)
    (hn : 0 < ctx.input_frame_samples) :
    (processNative env (processNative env ctx c).1 rest).1 =
      (processNative env ctx (c ++ rest)).1 := by
  have hn1 : 0 < (processNative env ctx c).1.input_frame_samples := by
    rw [processNative_state env ctx c hn]
    exact hn
  rw [processNative_state env (processNative env ctx c).1 rest hn1,
      processNative_state env ctx c hn,
      processNative_state env ctx (c ++ rest) hn]
  have hassoc : ctx.input_buffer ++ (c ++ rest) =
      (ctx.input_buffer ++ c) ++ rest := (List.append_assoc _ _ _).symm
  rw [hassoc]
  simp only [consumedFrames]
  rw [splitFrames_append ctx.input_frame_samples hn
    (ctx.input_buffer ++ c) rest]
  simp only [List.length_append]
  rw [lastOf_comp env.denVad ctx.last_vad_prob ctx.frames_done
      ((splitFrames ctx.input_frame_samples (ctx.input_buffer ++ c)).1).length
      ((splitFrames ctx.input_frame_samples
        ((splitFrames ctx.input_frame_samples
          (ctx.input_buffer ++ c)).2 ++ rest)).1).length,
    lastOf_comp env.denSpeech ctx.is_speech ctx.frames_done
      ((splitFrames ctx.input_frame_samples (ctx.input_buffer ++ c)).1).length
      ((splitFrames ctx.input_frame_samples
        ((splitFrames ctx.input_frame_samples
          (ctx.input_buffer ++ c)).2 ++ rest)).1).length,
    Nat.add_assoc]

/-- `flushNative` is `processNative` on a frame of zeros, followed by
clearing the input buffer (the returned result is identical). -/
lemma flushNative_eq_feed (env : Env) (ctx : Ctx) :
    flushNative env ctx =
      ({ (processNative env ctx
            (List.replicate ctx.input_frame_samples 0)).1 with
          input_buffer := [] },
       (processNative env ctx
          (List.replicate ctx.input_frame_samples 0)).2) := rfl

/-- Iterated feeding: one `processNative` call per chunk, threading the
session state. -/
def feedMany (env : Env) (ctx : Ctx) : List (List Int) → Ctx
  | [] => ctx
  | c :: cs => feedMany env (processNative env ctx c).1 cs

/-- The engine frames consumed across a sequence of `processNative`
calls, in order (each call drains the frames of its current buffer
contents plus the new chunk). -/
def feedManyFrames (env : Env) (ctx : Ctx) :
    List (List Int) → List (List Int)
  | [] => []
  | c :: cs =>
    consumedFrames ctx.input_frame_samples (ctx.input_buffer ++ c) ++
      feedManyFrames env (processNative env ctx c).1 cs

lemma feed_chunks_aux (env : Env) :
    ∀ (cs : List (List Int)) (ctx : Ctx) (c : List Int),
      0 < ctx.input_frame_samples →
      (feedMany env ctx (c :: cs) =
        (processNative env ctx (c :: cs).flatten).1 ∧
       feedManyFrames env ctx (c :: cs) =
        consumedFrames ctx.input_frame_samples
          (ctx.input_buffer ++ (c :: cs).flatten)) := by
  intro cs
  induction cs with
  | nil =>
    intro ctx c hn
    simp only [feedMany, feedManyFrames, List.flatten_cons,
      List.flatten_nil, List.append_nil]
    exact ⟨trivial, trivial⟩
  | cons c2 cs' ih =>
    intro ctx c hn
    have hn1 : 0 < (processNative env ctx c).1.input_frame_samples := by
      rw [processNative_state env ctx c hn]
      exact hn
    obtain ⟨ih1, ih2⟩ := ih (processNative env ctx c).1 c2 hn1
    constructor
    · show feedMany env (processNative env ctx c).1 (c2 :: cs') = _
      rw [ih1, processNative_comp env ctx c (c2 :: cs').flatten hn]
      simp only [List.flatten_cons, List.append_assoc]
    · show consumedFrames ctx.input_frame_samples (ctx.input_buffer ++ c) ++
          feedManyFrames env (processNative env ctx c).1 (c2 :: cs') = _
      rw [ih2]
      have hifs : (processNative env ctx c).1.input_frame_samples =
          ctx.input_frame_samples := by
        rw [processNative_state env ctx c hn]
      have hbuf : (processNative env ctx c).1.input_buffer =
          (splitFrames ctx.input_frame_samples (ctx.input_buffer ++ c)).2 := by
        rw [processNative_state env ctx c hn]
      rw [hifs, hbuf]
      simp only [consumedFrames, List.flatten_cons]
      rw [show ctx.input_buffer ++ (c ++ (c2 ++ cs'.flatten)) =
          (ctx.input_buffer ++ c) ++ (c2 ++ cs'.flatten) from
        (List.append_assoc _ _ _).symm]
      rw [splitFrames_append ctx.input_frame_samples hn
        (ctx.input_buffer ++ c) (c2 ++ cs'.flatten)]

lemma processNative_audio (env : Env) (ctx : Ctx) (input : List Int)
    (hn : 0 < ctx.input_frame_samples) :
    (processNative env ctx input).2.audio =
      ctx.output_buffer ++
        outsRange env ctx ctx.frames_done
          (consumedFrames ctx.input_frame_samples
            (ctx.input_buffer ++ input)).length := by
  rw [processNative_result env ctx input hn]

/-- A concrete collaborator environment in which every per-frame call
reports failure through its status code while still writing output. -/
def envFailing : Env where
  upsample := fun _ => List.replicate 480 5
  upStatus := fun _ => -3
  denoise := fun _ => List.replicate 480 7
  denVad := fun _ => 1/2
  denSpeech := fun _ => true
  denStatus := fun _ => -1
  downsample := fun _ => List.replicate 160 9
  downStatus := fun _ => -2

/-- The same environment with every status reporting success. -/
def envAllOk : Env := { envFailing with
  upStatus := fun _ => 0
  denStatus := fun _ => 0
  downStatus := fun _ => 0 }

/-- An environment whose upsampler under-produces: 400 of the 480
samples needed per engine frame. -/
def envShort : Env := { envAllOk with
  upsample := fun _ => List.replicate 400 3 }

/-- An environment whose upsampler over-produces: 500 samples per engine
frame, of which only the first 480 fit the capacity. -/
def envLong : Env := { envAllOk with
  upsample := fun _ => List.replicate 500 4 }

/-- A variant of `envLong` that differs from it only beyond the first
480 samples of each upsampler emission. -/
def envLong2 : Env := { envAllOk with
  upsample := fun _ => List.replicate 480 4 ++ List.replicate 40 8 }

/-- C1 counterexample: the code computes `inputFrameSamples` by
truncation, not rounding. At input rate 8080 Hz (≠ 48000 Hz, positive)
the exact ratio is 480 × 8080 / 48000 = 80.8: the code yields 80 while
the claimed `round` formula yields 81. -/
theorem C1_trunc_counterexample :
    (8080 : Nat) ≠ AUDX_DEFAULT_SAMPLE_RATE ∧ 0 < (8080 : Nat) ∧
    (createCtx 8080).input_frame_samples = 80 ∧
    roundDiv (AUDX_DEFAULT_FRAME_SIZE * 8080) AUDX_DEFAULT_SAMPLE_RATE = 81 := by
  refine ⟨by decide, by decide, by decide, by decide⟩

/-- C1 (amended): at session creation with input rate ≠ engine rate,
`inputFrameSamples` is computed as the truncation (floor) of
`engineFrameSamples × inputRate / engineRate`; whenever the product
divides evenly this coincides with rounding, and in particular for input
rate 16000, engine rate 48000 and engine frame 480 the result is 160. -/
theorem C1_floor_formula :
    (∀ r : Nat, r ≠ AUDX_DEFAULT_SAMPLE_RATE →
      (createCtx r).input_frame_samples =
        AUDX_DEFAULT_FRAME_SIZE * r / AUDX_DEFAULT_SAMPLE_RATE) ∧
    (∀ r : Nat, r ≠ AUDX_DEFAULT_SAMPLE_RATE →
      (AUDX_DEFAULT_FRAME_SIZE * r) % AUDX_DEFAULT_SAMPLE_RATE = 0 →
      (createCtx r).input_frame_samples =
        roundDiv (AUDX_DEFAULT_FRAME_SIZE * r) AUDX_DEFAULT_SAMPLE_RATE) ∧
    (createCtx 16000).input_frame_samples = 160 := by
  refine ⟨?_, ?_, by decide⟩
  · intro r hr
    simp [createCtx, hr]
  · intro r hr hmod
    rw [roundDiv_of_dvd _ _ (by decide) (Nat.dvd_of_mod_eq_zero hmod)]
    simp [createCtx, hr]

theorem C1_floor_formula_witness :
    (16000 : Nat) ≠ AUDX_DEFAULT_SAMPLE_RATE ∧
    (AUDX_DEFAULT_FRAME_SIZE * 16000) % AUDX_DEFAULT_SAMPLE_RATE = 0 ∧
    (createCtx 16000).input_frame_samples =
      AUDX_DEFAULT_FRAME_SIZE * 16000 / AUDX_DEFAULT_SAMPLE_RATE ∧
    (createCtx 16000).input_frame_samples =
      roundDiv (AUDX_DEFAULT_FRAME_SIZE * 16000) AUDX_DEFAULT_SAMPLE_RATE :=
  ⟨by decide, by decide,
   C1_floor_formula.1 16000 (by decide),
   C1_floor_formula.2.1 16000 (by decide) (by decide)⟩

/-- C2: feeding a sequence of chunks one `processNative` call at a time
leaves the session in exactly the same state as a single `processNative`
call on the concatenation, and the sequence of `inputFrameSamples`-sized
engine frames consumed (count, contents and order) is exactly the
framing of the cumulative input — chunk boundaries are invisible. -/
theorem C2_chunking_invariant (env : Env) (ctx : Ctx)
    (chunks : List (List Int)) (hn : 0 < ctx.input_frame_samples)
    (hne : chunks ≠ []) :
    feedMany env ctx chunks = (processNative env ctx chunks.flatten).1 ∧
    feedManyFrames env ctx chunks =
      consumedFrames ctx.input_frame_samples
        (ctx.input_buffer ++ chunks.flatten) := by
  cases chunks with
  | nil => exact absurd rfl hne
  | cons c cs => exact feed_chunks_aux env cs ctx c hn

theorem C2_chunking_invariant_witness :
    0 < (createCtx AUDX_DEFAULT_SAMPLE_RATE).input_frame_samples ∧
    ([[1], [2]] : List (List Int)) ≠ [] ∧
    (feedMany envAllOk (createCtx AUDX_DEFAULT_SAMPLE_RATE) [[1], [2]] =
      (processNative envAllOk (createCtx AUDX_DEFAULT_SAMPLE_RATE)
        ([[1], [2]] : List (List Int)).flatten).1 ∧
     feedManyFrames envAllOk (createCtx AUDX_DEFAULT_SAMPLE_RATE)
        [[1], [2]] =
      consumedFrames
        (createCtx AUDX_DEFAULT_SAMPLE_RATE).input_frame_samples
        ((createCtx AUDX_DEFAULT_SAMPLE_RATE).input_buffer ++
          ([[1], [2]] : List (List Int)).flatten)) :=
  ⟨by decide, by decide,
   C2_chunking_invariant envAllOk (createCtx AUDX_DEFAULT_SAMPLE_RATE)
     [[1], [2]] (by decide) (by decide)⟩

set_option maxRecDepth 100000 in
/-- C3 counterexample: in a resampling session at 800 Hz (one frame =
480 × 800 / 48000 = 8 input samples) fed one full frame, all three
collaborator calls report failure codes (−3, −1, −2), yet the drain
loop processes the frame anyway, the feed call returns the accumulated
output samples (the downsampler emission clipped to the 16-sample
capacity) instead of discarding them, and the returned result is
identical to the all-success run — no error reaches the caller. -/
theorem C3_failure_not_surfaced :
    envFailing.upStatus 0 = -3 ∧ envFailing.denStatus 0 = -1 ∧
    envFailing.downStatus 0 = -2 ∧
    (audx_process_stream envFailing
      { createCtx 800 with input_buffer := List.replicate 8 1 }).2 = 1 ∧
    (processNative envFailing (createCtx 800)
        (List.replicate 8 1)).2.audio = List.replicate 16 9 ∧
    (processNative envFailing (createCtx 800) (List.replicate 8 1)).2 =
      (processNative envAllOk (createCtx 800) (List.replicate 8 1)).2 := by
  have h6 : audx_process_streamF envFailing =
      audx_process_streamF envAllOk := by
    funext fuel c
    exact audx_process_streamF_env_congr envFailing envAllOk
      rfl rfl rfl rfl fuel c
  refine ⟨rfl, rfl, rfl, by decide, by decide, ?_⟩
  simp only [processNative, audx_process_stream, h6]

/-- C3 (amended): the drain loop never inspects the return codes of
`audx_resample_process` or `denoiser_process`: two environments that
agree on all sample and VAD outputs but differ arbitrarily in their
status codes produce identical `feed` and `flush` results — a per-frame
failure neither aborts the call, nor discards the accumulated output,
nor surfaces any error to the caller. -/
theorem C3_statuses_ignored (env env' : Env)
    (h1 : env.upsample = env'.upsample)
    (h2 : env.denoise = env'.denoise) (h3 : env.denVad = env'.denVad)
    (h4 : env.denSpeech = env'.denSpeech)
    (h5 : env.downsample = env'.downsample)
    (ctx : Ctx) (input : List Int) :
    processNative env ctx input = processNative env' ctx input ∧
    flushNative env ctx = flushNative env' ctx := by
  have hF : ∀ fuel c, audx_process_streamF env fuel c =
      audx_process_streamF env' fuel c :=
    audx_process_streamF_env_congr env env' h2 h3 h4 h5
  constructor
  · simp only [processNative, audx_process_stream, hF]
  · simp only [flushNative, audx_process_stream, hF]

theorem C3_statuses_ignored_witness :
    envFailing.upsample = envAllOk.upsample ∧
    envFailing.denoise = envAllOk.denoise ∧
    envFailing.denVad = envAllOk.denVad ∧
    envFailing.denSpeech = envAllOk.denSpeech ∧
    envFailing.downsample = envAllOk.downsample ∧
    processNative envFailing (createCtx 16000) (List.replicate 160 1) =
      processNative envAllOk (createCtx 16000) (List.replicate 160 1) ∧
    flushNative envFailing (createCtx 16000) =
      flushNative envAllOk (createCtx 16000) :=
  ⟨rfl, rfl, rfl, rfl, rfl,
   (C3_statuses_ignored envFailing envAllOk rfl rfl rfl rfl rfl
     (createCtx 16000) (List.replicate 160 1)).1,
   (C3_statuses_ignored envFailing envAllOk rfl rfl rfl rfl rfl
     (createCtx 16000) (List.replicate 160 1)).2⟩

/-- C4: on the resampling path the buffer handed to the denoising
engine always holds exactly `engineFrameSamples` (480) samples, and
whenever the upsampler emits fewer, the positions from its output
length up to 480 are zeros appended at the tail. -/
theorem C4_engine_frame_padded (env : Env) (r k : Nat)
    (hr : r ≠ AUDX_DEFAULT_SAMPLE_RATE) :
    (engineInput env (createCtx r).upsampled_cap
        (createCtx r).output_frame_samples k).length =
      AUDX_DEFAULT_FRAME_SIZE ∧
    ((env.upsample k).length < AUDX_DEFAULT_FRAME_SIZE →
      engineInput env (createCtx r).upsampled_cap
          (createCtx r).output_frame_samples k =
        env.upsample k ++
          List.replicate
            (AUDX_DEFAULT_FRAME_SIZE - (env.upsample k).length) 0) := by
  have hcap : (createCtx r).upsampled_cap = AUDX_DEFAULT_FRAME_SIZE := by
    simp [createCtx, hr]
  have htgt : (createCtx r).output_frame_samples =
      AUDX_DEFAULT_FRAME_SIZE := by
    simp [createCtx, hr]
  rw [hcap, htgt]
  exact ⟨engineInput_length env AUDX_DEFAULT_FRAME_SIZE k,
    fun h => engineInput_pad env AUDX_DEFAULT_FRAME_SIZE k h⟩

set_option maxRecDepth 100000 in
set_option maxHeartbeats 2000000 in
theorem C4_engine_frame_padded_witness :
    (16000 : Nat) ≠ AUDX_DEFAULT_SAMPLE_RATE ∧
    (envShort.upsample 0).length < AUDX_DEFAULT_FRAME_SIZE ∧
    (engineInput envShort (createCtx 16000).upsampled_cap
        (createCtx 16000).output_frame_samples 0).length =
      AUDX_DEFAULT_FRAME_SIZE ∧
    engineInput envShort (createCtx 16000).upsampled_cap
        (createCtx 16000).output_frame_samples 0 =
      envShort.upsample 0 ++
        List.replicate
          (AUDX_DEFAULT_FRAME_SIZE - (envShort.upsample 0).length) 0 :=
  ⟨by decide, by decide,
   (C4_engine_frame_padded envShort 16000 0 (by decide)).1,
   (C4_engine_frame_padded envShort 16000 0 (by decide)).2 (by decide)⟩

/-- C5: after any `feed` or `flush` call on a session with a positive
frame size, the input buffer holds strictly fewer than
`inputFrameSamples` samples, and the output buffer is empty after its
contents were returned. -/
theorem C5_buffers_drained (env : Env) (ctx : Ctx) (input : List Int)
    (hn : 0 < ctx.input_frame_samples) :
    ((processNative env ctx input).1.input_buffer.length <
        ctx.input_frame_samples ∧
      (processNative env ctx input).1.output_buffer = []) ∧
    ((flushNative env ctx).1.input_buffer.length <
        ctx.input_frame_samples ∧
      (flushNative env ctx).1.output_buffer = []) := by
  refine ⟨⟨?_, rfl⟩, ?_, rfl⟩
  · rw [processNative_state env ctx input hn]
    exact splitFrames_rest_lt _ hn _
  · show ([] : List Int).length < ctx.input_frame_samples
    simpa using hn

theorem C5_buffers_drained_witness :
    0 < (createCtx 16000).input_frame_samples ∧
    (((processNative envAllOk (createCtx 16000)
          (List.replicate 50 1)).1.input_buffer.length <
        (createCtx 16000).input_frame_samples ∧
      (processNative envAllOk (createCtx 16000)
        (List.replicate 50 1)).1.output_buffer = []) ∧
     ((flushNative envAllOk (createCtx 16000)).1.input_buffer.length <
        (createCtx 16000).input_frame_samples ∧
      (flushNative envAllOk (createCtx 16000)).1.output_buffer = [])) :=
  ⟨by decide, C5_buffers_drained envAllOk (createCtx 16000)
    (List.replicate 50 1) (by decide)⟩

/-- C6: `flush` appends exactly `inputFrameSamples` zero samples and
runs the same drain loop as a `feed` of those zeros, returning the same
result; afterwards the input buffer is empty, and a second flush with no
intervening feed drains only its own zero padding — exactly one frame of
zeros, never a previous frame again. -/
theorem C6_flush_behavior (env : Env) (ctx : Ctx)
    (hn : 0 < ctx.input_frame_samples) :
    (flushNative env ctx).2 =
      (processNative env ctx (List.replicate ctx.input_frame_samples 0)).2 ∧
    (flushNative env ctx).1 =
      { (processNative env ctx
          (List.replicate ctx.input_frame_samples 0)).1 with
        input_buffer := [] } ∧
    (flushNative env ctx).1.input_buffer = [] ∧
    consumedFrames ctx.input_frame_samples
        ((flushNative env ctx).1.input_buffer ++
          List.replicate ctx.input_frame_samples 0) =
      [List.replicate ctx.input_frame_samples 0] := by
  refine ⟨rfl, rfl, rfl, ?_⟩
  show consumedFrames ctx.input_frame_samples
      (([] : List Int) ++ List.replicate ctx.input_frame_samples 0) = _
  rw [List.nil_append]
  unfold consumedFrames
  rw [splitFrames_step ctx.input_frame_samples _ hn (by simp)]
  rw [List.take_of_length_le (by simp), List.drop_eq_nil_of_le (by simp),
    splitFrames_nil]

theorem C6_flush_behavior_witness :
    0 < (createCtx 16000).input_frame_samples ∧
    ((flushNative envAllOk (createCtx 16000)).2 =
      (processNative envAllOk (createCtx 16000)
        (List.replicate (createCtx 16000).input_frame_samples 0)).2 ∧
     (flushNative envAllOk (createCtx 16000)).1 =
      { (processNative envAllOk (createCtx 16000)
          (List.replicate (createCtx 16000).input_frame_samples 0)).1 with
        input_buffer := [] } ∧
     (flushNative envAllOk (createCtx 16000)).1.input_buffer = [] ∧
     consumedFrames (createCtx 16000).input_frame_samples
        ((flushNative envAllOk (createCtx 16000)).1.input_buffer ++
          List.replicate (createCtx 16000).input_frame_samples 0) =
      [List.replicate (createCtx 16000).input_frame_samples 0]) :=
  ⟨by decide, C6_flush_behavior envAllOk (createCtx 16000) (by decide)⟩

/-- C7: evaluation of the creation path at failing inputs. With input
rate 16000 Hz (resampling required), if either resampler construction
fails, `createNative` returns the null handle, but the denoiser engine,
the `ResamplerContext` allocation and the other, successfully
constructed resampler are all left unreleased — the failure path at
native-lib.cpp lines 150–153 performs no cleanup, contradicting the
claim that every acquired resource is released. -/
theorem C7_create_failure_leaks :
    ((createNative 16000 true false true true).1 = none ∧
     (createNative 16000 true false true true).2 =
       [Resource.denoiser, Resource.resamplerCtx, Resource.downsampler]) ∧
    ((createNative 16000 true true false true).1 = none ∧
     (createNative 16000 true true false true).2 =
       [Resource.denoiser, Resource.resamplerCtx, Resource.upsampler]) :=
  ⟨⟨rfl, rfl⟩, rfl, rfl⟩

/-- C8: with input rate equal to the engine rate, no resampling is set
up (`needsResampling` false, neither resampler constructed,
`inputFrameSamples = engineFrameSamples`), and feeding exactly
`k × engineFrameSamples` samples into a fresh session returns exactly
`k × engineFrameSamples` output samples. -/
theorem C8_no_resampling (env : Env) (k : Nat) (samples : List Int)
    (h : samples.length = AUDX_DEFAULT_FRAME_SIZE * k) :
    (createCtx AUDX_DEFAULT_SAMPLE_RATE).needs_resampling = false ∧
    (createCtx AUDX_DEFAULT_SAMPLE_RATE).has_upsampler = false ∧
    (createCtx AUDX_DEFAULT_SAMPLE_RATE).has_downsampler = false ∧
    (createCtx AUDX_DEFAULT_SAMPLE_RATE).input_frame_samples =
      (createCtx AUDX_DEFAULT_SAMPLE_RATE).output_frame_samples ∧
    (processNative env (createCtx AUDX_DEFAULT_SAMPLE_RATE)
        samples).2.audio.length = AUDX_DEFAULT_FRAME_SIZE * k := by
  have hn : 0 < (createCtx AUDX_DEFAULT_SAMPLE_RATE).input_frame_samples := by
    decide
  refine ⟨rfl, rfl, rfl, rfl, ?_⟩
  rw [processNative_audio env _ samples hn]
  have hbuf : (createCtx AUDX_DEFAULT_SAMPLE_RATE).input_buffer ++ samples =
      samples := rfl
  rw [hbuf]
  have hM : (consumedFrames
      (createCtx AUDX_DEFAULT_SAMPLE_RATE).input_frame_samples
        samples).length = k := by
    rw [consumedFrames_length _ hn, h]
    show AUDX_DEFAULT_FRAME_SIZE * k / AUDX_DEFAULT_FRAME_SIZE = k
    exact Nat.mul_div_cancel_left k (by decide)
  rw [hM]
  have hL : ∀ j, (frameOut env
      (createCtx AUDX_DEFAULT_SAMPLE_RATE) j).length =
      AUDX_DEFAULT_FRAME_SIZE := by
    intro j
    simp [frameOut, createCtx, denoisedFrame]
    omega
  have hout : (createCtx AUDX_DEFAULT_SAMPLE_RATE).output_buffer = [] := rfl
  have hfd : (createCtx AUDX_DEFAULT_SAMPLE_RATE).frames_done = 0 := rfl
  rw [hout, hfd, List.nil_append,
    outsRange_length_const env (createCtx AUDX_DEFAULT_SAMPLE_RATE)
      AUDX_DEFAULT_FRAME_SIZE hL k 0]
  exact Nat.mul_comm k AUDX_DEFAULT_FRAME_SIZE

set_option maxRecDepth 100000 in
set_option maxHeartbeats 2000000 in
theorem C8_no_resampling_witness :
    (List.replicate 480 (3 : Int)).length = AUDX_DEFAULT_FRAME_SIZE * 1 ∧
    (processNative envAllOk (createCtx AUDX_DEFAULT_SAMPLE_RATE)
        (List.replicate 480 (3 : Int))).2.audio.length =
      AUDX_DEFAULT_FRAME_SIZE * 1 :=
  ⟨by decide,
   (C8_no_resampling envAllOk 1 (List.replicate 480 (3 : Int))
     (by decide)).2.2.2.2⟩

/-- C9: `cleanStatsNative` zeroes the frame count, speech-frame count,
VAD score sum and both timing fields, and resets the running minimum VAD
score to 1 (the maximum representable probability) and the running
maximum to 0 (the minimum representable probability), so the first
probability folded in afterwards becomes both the new minimum and the
new maximum. -/
theorem C9_reset_stats (d : Denoiser) (vad : ℚ) (speech : Bool) (t : ℚ)
    (h0 : 0 ≤ vad) (h1 : vad ≤ 1) :
    (cleanStatsNative d).frames_processed = 0 ∧
    (cleanStatsNative d).speech_frames = 0 ∧
    (cleanStatsNative d).total_vad_score = 0 ∧
    (cleanStatsNative d).total_processing_time = 0 ∧
    (cleanStatsNative d).last_frame_time = 0 ∧
    (cleanStatsNative d).min_vad_score = 1 ∧
    (cleanStatsNative d).max_vad_score = 0 ∧
    (statsUpdate (cleanStatsNative d) vad speech t).min_vad_score = vad ∧
    (statsUpdate (cleanStatsNative d) vad speech t).max_vad_score = vad := by
  refine ⟨rfl, rfl, rfl, rfl, rfl, rfl, rfl, ?_, ?_⟩
  · show min (1 : ℚ) vad = vad
    exact min_eq_right h1
  · show max (0 : ℚ) vad = vad
    exact max_eq_right h0

/-- A concrete statistics block with nonzero fields, used to exercise
the reset. -/
def dExample : Denoiser where
  frames_processed := 3
  speech_frames := 2
  total_vad_score := 5/2
  min_vad_score := 1/4
  max_vad_score := 9/10
  total_processing_time := 7
  last_frame_time := 2

theorem C9_reset_stats_witness :
    (0 : ℚ) ≤ 3/5 ∧ (3/5 : ℚ) ≤ 1 ∧
    ((statsUpdate (cleanStatsNative dExample) (3/5) true 1).min_vad_score =
        3/5 ∧
     (statsUpdate (cleanStatsNative dExample) (3/5) true 1).max_vad_score =
        3/5) :=
  ⟨by norm_num, by norm_num,
   (C9_reset_stats dExample (3/5) true 1 (by norm_num)
     (by norm_num)).2.2.2.2.2.2.2⟩

/-- C10: the output capacity handed to the upsampler is exactly
`engineFrameSamples` (the size of the pre-allocated upsampled buffer
fixed at creation), so the upsampler can never contribute more than
`engineFrameSamples` samples to an engine frame: an over-producing
emission is silently truncated to its first `engineFrameSamples`
samples, and nothing beyond that capacity can influence any engine
frame (in particular no carry into later frames). -/
theorem C10_upsampler_capacity (env env' : Env) (r k : Nat)
    (hr : r ≠ AUDX_DEFAULT_SAMPLE_RATE)
    (hlong : AUDX_DEFAULT_FRAME_SIZE ≤ (env.upsample k).length)
    (hagree : (env.upsample k).take AUDX_DEFAULT_FRAME_SIZE =
      (env'.upsample k).take AUDX_DEFAULT_FRAME_SIZE) :
    (createCtx r).upsampled_cap = (createCtx r).output_frame_samples ∧
    (createCtx r).upsampled_cap = AUDX_DEFAULT_FRAME_SIZE ∧
    engineInput env (createCtx r).upsampled_cap
        (createCtx r).output_frame_samples k =
      (env.upsample k).take AUDX_DEFAULT_FRAME_SIZE ∧
    engineInput env (createCtx r).upsampled_cap
        (createCtx r).output_frame_samples k =
      engineInput env' (createCtx r).upsampled_cap
        (createCtx r).output_frame_samples k := by
  have hcap : (createCtx r).upsampled_cap = AUDX_DEFAULT_FRAME_SIZE := by
    simp [createCtx, hr]
  have htgt : (createCtx r).output_frame_samples =
      AUDX_DEFAULT_FRAME_SIZE := by
    simp [createCtx, hr]
  refine ⟨by rw [hcap, htgt], hcap, ?_, ?_⟩
  · rw [hcap, htgt]
    exact engineInput_truncate env AUDX_DEFAULT_FRAME_SIZE k hlong
  · rw [hcap, htgt]
    exact engineInput_take_congr env env' AUDX_DEFAULT_FRAME_SIZE
      AUDX_DEFAULT_FRAME_SIZE k hagree

set_option maxRecDepth 100000 in
set_option maxHeartbeats 4000000 in
theorem C10_upsampler_capacity_witness :
    (16000 : Nat) ≠ AUDX_DEFAULT_SAMPLE_RATE ∧
    AUDX_DEFAULT_FRAME_SIZE ≤ (envLong.upsample 0).length ∧
    (envLong.upsample 0).take AUDX_DEFAULT_FRAME_SIZE =
      (envLong2.upsample 0).take AUDX_DEFAULT_FRAME_SIZE ∧
    (engineInput envLong (createCtx 16000).upsampled_cap
        (createCtx 16000).output_frame_samples 0 =
      (envLong.upsample 0).take AUDX_DEFAULT_FRAME_SIZE ∧
     engineInput envLong (createCtx 16000).upsampled_cap
        (createCtx 16000).output_frame_samples 0 =
      engineInput envLong2 (createCtx 16000).upsampled_cap
        (createCtx 16000).output_frame_samples 0) :=
  ⟨by decide, by decide, by decide,
   (C10_upsampler_capacity envLong envLong2 16000 0 (by decide) (by decide)
     (by decide)).2.2⟩

end Audx
